import Mathlib

/-!
Verification of the insurance-compliance engine of the Compliant4 repository.

The definitions below are a shallow embedding of the Python sources:
  * `services/pdf_service.py`   (`parse_insurance_program_pdf`, `analyze_coi_compliance`)
  * `integrations/adobe_pdf_service.py` (`extract_coi_fields`)

Machine integers are modelled by `Nat`/`Int` (Python ints are unbounded), Python
dictionaries with defaulted `.get` accesses become structures with default
fields, fallible code returns `Except`, and the reference instant
`datetime.now(timezone.utc)` is an explicit `Int` parameter (an epoch
timestamp; only its linear order is used by the code).
-/

namespace Compliant4

/-! ## Character and string helpers (Python `str` operations) -/

/-- Python's `\s` / `str.strip` whitespace, restricted to the ASCII range
(space, tab, newline, carriage return, vertical tab, form feed). -/
def isPySpace (c : Char) : Bool :=
  c == ' ' || c == '\t' || c == '\n' || c == '\r' || c == Char.ofNat 11 || c == Char.ofNat 12

/-- Python's `\w` (ASCII): letters, digits, underscore. -/
def isWordChar (c : Char) : Bool :=
  c.isAlphanum || c == '_'

/-- Strip leading and trailing whitespace, as Python `str.strip()`. -/
def pyStripChars (cs : List Char) : List Char :=
  ((cs.dropWhile isPySpace).reverse.dropWhile isPySpace).reverse

/-- Python `s.strip()` on a `String`. -/
def pyStrip (s : String) : String :=
  String.mk (pyStripChars s.data)

/-- Lower-case a character list, as Python `str.lower()` (ASCII inputs). -/
def lowerChars (cs : List Char) : List Char :=
  cs.map Char.toLower

/-- Substring test on character lists: Python's `needle in hay`. -/
def containsSub (needle : List Char) : List Char → Bool
  | [] => needle.isEmpty
  | c :: rest => needle.isPrefixOf (c :: rest) || containsSub needle rest

/-- Python's `a.lower() in b.lower()` (case-insensitive substring test). -/
def containsCI (needle hay : String) : Bool :=
  containsSub (lowerChars needle.data) (lowerChars hay.data)

/-- Python `s.split(",")`: split on every comma, keeping empty segments
(`"a,,b".split(",") == ["a","","b"]`, `"".split(",") == [""]`). -/
def splitComma : List Char → List (List Char)
  | [] => [[]]
  | c :: rest =>
    let r := splitComma rest
    if c == ',' then [] :: r
    else
      match r with
      | [] => [[c]]
      | h :: t => (c :: h) :: t

/-! ## Compliance evaluator data model (`analyze_coi_compliance`) -/

/-- One entry of the `issues` list built by `analyze_coi_compliance`
(`pdf_service.py:188-264`).  Each constructor corresponds to one of the
dict shapes appended by the Python code; the `severity` field carries the
string stored under the `"severity"` key. -/
inductive Issue where
  | coverage_insufficient (trade : String) (required : Nat) (actual : Nat) (severity : String)
  | coverage_expired (coverage_type : String) (expiration_date : String) (severity : String)
  | invalid_date_format (coverage_type : String) (severity : String)
  | missing_additional_insured (required_party : String) (actual_parties : List String)
      (severity : String)
deriving DecidableEq

/-- An expiration-date field value as observed by `analyze_coi_compliance`:
`raw` is the stored string (tested for truthiness at `pdf_service.py:201`),
and `parsed` is the outcome of
`datetime.fromisoformat(raw.replace("Z", "+00:00"))` (`pdf_service.py:203`):
`some t` when the string parses as an ISO-8601 instant with epoch timestamp
`t`, `none` when parsing raises `ValueError`.  (Strings that parse to naive
datetimes are outside the model: the spec and claims only speak of ISO-8601
instants and of unparseable strings, and the repository's tests use
timezone-aware dates throughout.) -/
structure DateField where
  raw : String
  parsed : Option Int
deriving DecidableEq

/-- The `additional_insureds` value of a COI record: the code accepts either
a list or a single comma-joined string (`pdf_service.py:250-253`). -/
inductive AIField where
  | list (entries : List String)
  | str (s : String)
deriving DecidableEq

/-- A COI record, holding the keys `analyze_coi_compliance` reads via
`coi_data.get`; a record default corresponds to the `.get` default for an
absent key. -/
structure CoiData where
  gl_limits_per_occurrence : Nat := 0
  gl_expiration_date : Option DateField := none
  wc_expiration_date : Option DateField := none
  additional_insureds : AIField := .list []
deriving DecidableEq

/-- A program requirement as read by `analyze_coi_compliance` via `req.get`;
record defaults mirror the `.get` defaults (`pdf_service.py:183-184,244-245`).
`additional_insured_party = none` models a dict without that key, for which
the code substitutes `"Certificate Holder"`. -/
structure ProgramReq where
  gl_per_occurrence : Nat := 0
  trade : String := "Unknown"
  requires_additional_insured : Bool := true
  additional_insured_party : Option String := none
deriving DecidableEq

/-- Result of `analyze_coi_compliance` (`pdf_service.py:266-270`). -/
structure ComplianceResult where
  compliant : Bool
  issues : List Issue
  summary : String
deriving DecidableEq

/-- Step 1 of `analyze_coi_compliance` (`pdf_service.py:179-194`): the loop
over `program_requirements` comparing `gl_limits_per_occurrence` with each
`gl_per_occurrence`.  Returns the issues appended by the loop (in loop
order) together with the flag "`compliant` was set to `False`". -/
def checkCoverage (glLimit : Nat) : List ProgramReq → List Issue × Bool
  | [] => ([], false)
  | req :: rest =>
    let (is, bad) := checkCoverage glLimit rest
    if 0 < req.gl_per_occurrence ∧ glLimit < req.gl_per_occurrence then
      (Issue.coverage_insufficient req.trade req.gl_per_occurrence glLimit "high" :: is, true)
    else (is, bad)

/-- Step 2 of `analyze_coi_compliance` for one date field
(`pdf_service.py:199-218` for GL, `221-239` for WC): skip falsy values,
emit `coverage_expired` (and fail) when the parsed instant is `<=` the
reference instant, and emit `invalid_date_format` on a parse failure.
Note the Python `except` branch appends the issue but does NOT set
`compliant = False` (`pdf_service.py:212-218`); the returned flag
reproduces this faithfully. -/
def checkDate (coverageType : String) (field : Option DateField) (now : Int) :
    List Issue × Bool :=
  match field with
  | none => ([], false)
  | some d =>
    if d.raw = "" then ([], false)
    else
      match d.parsed with
      | some e =>
        if e ≤ now then ([Issue.coverage_expired coverageType d.raw "critical"], true)
        else ([], false)
      | none => ([Issue.invalid_date_format coverageType "medium"], false)

/-- The `required_additional_insureds` accumulation loop
(`pdf_service.py:242-247`): parties of requirements demanding an additional
insured, defaulting to `"Certificate Holder"`, appended without duplicates. -/
def requiredPartiesAux : List ProgramReq → List String → List String
  | [], acc => acc
  | req :: rest, acc =>
    if req.requires_additional_insured then
      let party := req.additional_insured_party.getD "Certificate Holder"
      if party ∈ acc then requiredPartiesAux rest acc
      else requiredPartiesAux rest (acc ++ [party])
    else requiredPartiesAux rest acc

def requiredParties (reqs : List ProgramReq) : List String :=
  requiredPartiesAux reqs []

/-- Normalisation of the `additional_insureds` value
(`pdf_service.py:250-253`): a string is split on commas and each segment
stripped (empty segments are kept, exactly as the list comprehension does). -/
def normalizeAI : AIField → List String
  | .list l => l
  | .str s => (splitComma s.data).map (fun cs => String.mk (pyStripChars cs))

/-- The generator `any(required.lower() in ai.lower() for ai in
actual_additional_insureds if ai)` (`pdf_service.py:257`). -/
def aiMatchFound (required : String) (actuals : List String) : Bool :=
  actuals.any (fun ai => (ai != "") && containsCI required ai)

/-- Step 3 of `analyze_coi_compliance` (`pdf_service.py:256-264`): one
`missing_additional_insured` issue per required party with no match. -/
def checkAI (actuals : List String) : List String → List Issue × Bool
  | [] => ([], false)
  | p :: rest =>
    let (is, bad) := checkAI actuals rest
    if (p != "") && !(aiMatchFound p actuals) then
      (Issue.missing_additional_insured p actuals "high" :: is, true)
    else (is, bad)

/-- `analyze_coi_compliance(coi_data, program_requirements)`
(`pdf_service.py:171-270`), with the reference instant
`datetime.now(timezone.utc)` passed explicitly as `now`.  The sequential
mutation of `compliant`/`issues` in the Python code is rendered as the
concatenation of the per-step issue lists and the disjunction of the
per-step failure flags, in the order the code performs the checks. -/
def analyze_coi_compliance (now : Int) (coi : CoiData) (reqs : List ProgramReq) :
    ComplianceResult :=
  let c := checkCoverage coi.gl_limits_per_occurrence reqs
  let d1 := checkDate "General Liability" coi.gl_expiration_date now
  let d2 := checkDate "Workers Compensation" coi.wc_expiration_date now
  let actuals := normalizeAI coi.additional_insureds
  let a := checkAI actuals (requiredParties reqs)
  let compliant := !(c.2 || d1.2 || d2.2 || a.2)
  let issues := c.1 ++ d1.1 ++ d2.1 ++ a.1
  { compliant := compliant
    issues := issues
    summary := (if compliant then "Compliant" else "Non-compliant") ++ " - " ++
      toString issues.length ++ " issues found" }

/-! ## Scanners for `parse_insurance_program_pdf` (`pdf_service.py:49-168`)

Each Python regex is rendered as an anchored matcher over the remaining
character list (returning its capture groups and the rest of the input), and
`re.finditer` as a left-to-right scan that resumes after each match.  Greedy
quantifiers are translated as maximal runs; the few places where the regex
engine would backtrack (a `\s+` giving characters back to a following
`[^\$]+`/`[:\s]+`/`\s*`-plus-class, optional groups whose continuation
fails) are spelled out explicitly at the corresponding spot. -/

/-- Case-insensitive literal (the patterns are compiled with
`re.IGNORECASE`); returns the rest of the input. -/
def litCI : List Char → List Char → Option (List Char)
  | [], cs => some cs
  | _ :: _, [] => none
  | l :: ls, c :: cs => if l.toLower == c.toLower then litCI ls cs else none

/-- Greedy `+` on a character class: a maximal, non-empty run. -/
def many1 (p : Char → Bool) (cs : List Char) : Option (List Char × List Char) :=
  let (t, r) := cs.span p
  if t.isEmpty then none else some (t, r)

/-- The class `[:\s]` of the separator parts `[:\s]+`. -/
def isSepChar (c : Char) : Bool := c == ':' || isPySpace c

/-- The class `[0-9,]` of the dollar-amount groups. -/
def isAmtChar (c : Char) : Bool := c.isDigit || c == ','

/-- `[:\s]+\$([0-9,]+)`, the common tail of patterns 2 and 3 and of the
ancillary patterns: separators, a dollar sign, then the amount group.
(No backtracking arises: neither class contains `$`.) -/
def sepDollarAmount (cs : List Char) : Option (List Char × List Char) :=
  match many1 isSepChar cs with
  | none => none
  | some (_, r) =>
    match r with
    | '$' :: r2 => many1 isAmtChar r2
    | _ => none

/-- `re.finditer` driver: try the anchored matcher at every position from the
left, emitting non-overlapping matches and resuming after each one.  All
matchers below consume at least one character, so `fuel = length + 1`
suffices to visit every position. -/
def scanAux {α : Type} (matchAt : List Char → Option (α × List Char)) :
    Nat → List Char → List α
  | 0, _ => []
  | _ + 1, [] =>
    match matchAt [] with
    | some (a, _) => [a]
    | none => []
  | fuel + 1, c :: cs =>
    match matchAt (c :: cs) with
    | some (a, rest) => a :: scanAux matchAt fuel rest
    | none => scanAux matchAt fuel cs

def finditer {α : Type} (matchAt : List Char → Option (α × List Char)) (s : String) :
    List α :=
  scanAux matchAt (s.data.length + 1) s.data

/-- Pattern 1, `Tier\s+(\d+)\s+([^\$]+)\$([0-9,]+)` (`pdf_service.py:63-67`).
Returns the groups (tier digits, trade text, amount).  When the maximal
`[^\$]+` run after the second `\s+` is empty (the next character is already
`$`), the engine backtracks the `\s+` by one character, so the trade group
becomes the last whitespace character, provided at least one space remains
for `\s+`. -/
def matchP1At (cs : List Char) : Option ((List Char × List Char × List Char) × List Char) :=
  match litCI "Tier".data cs with
  | none => none
  | some r0 =>
    match many1 isPySpace r0 with
    | none => none
    | some (_, r1) =>
      match many1 Char.isDigit r1 with
      | none => none
      | some (d, r2) =>
        match many1 isPySpace r2 with
        | none => none
        | some (sp2, r3) =>
          let (body, r4) := r3.span (fun c => c != '$')
          match r4 with
          | '$' :: r5 =>
            match many1 isAmtChar r5 with
            | none => none
            | some (amt, r6) =>
              if body.isEmpty then
                if 2 ≤ sp2.length then some ((d, [sp2.getLastD ' '], amt), r6) else none
              else some ((d, body, amt), r6)
          | _ => none

/-- Pattern 2, `Prime\s+Subcontractor[:\s]+\$([0-9,]+)`
(`pdf_service.py:84-88`).  Returns the amount group. -/
def matchP2At (cs : List Char) : Option (List Char × List Char) :=
  match litCI "Prime".data cs with
  | none => none
  | some r0 =>
    match many1 isPySpace r0 with
    | none => none
    | some (_, r1) =>
      match litCI "Subcontractor".data r1 with
      | none => none
      | some r2 => sepDollarAmount r2

/-- Pattern 3, `(?:All\s+)?Tier\s+(\d+)(?:\s+trades?)?[:\s]+\$([0-9,]+)`
(`pdf_service.py:102-106`).  Returns (tier digits, amount).  The optional
groups are tried greedily with fallback to the empty alternative when the
continuation fails, as the regex engine does. -/
def matchP3At (cs : List Char) : Option ((List Char × List Char) × List Char) :=
  let core := fun (c0 : List Char) =>
    match litCI "Tier".data c0 with
    | none => none
    | some r0 =>
      match many1 isPySpace r0 with
      | none => none
      | some (_, r1) =>
        match many1 Char.isDigit r1 with
        | none => none
        | some (d, c2) =>
          let fin := fun (c3 : List Char) =>
            match sepDollarAmount c3 with
            | none => none
            | some (amt, r) => some ((d, amt), r)
          let withTrades :=
            match many1 isPySpace c2 with
            | none => none
            | some (_, c3) =>
              match litCI "trade".data c3 with
              | none => none
              | some c4 =>
                match c4 with
                | ch :: c5 => if ch.toLower == 's' then fin c5 <|> fin c4 else fin c4
                | [] => fin c4
          withTrades <|> fin c2
  match litCI "All".data cs with
  | some a1 =>
    match many1 isPySpace a1 with
    | some (_, a2) => core a2 <|> core cs
    | none => core cs
  | none => core cs

/-- The apostrophe character of the class `[\'\']` in the workers'-comp
pattern. -/
def apostrophe : Char := Char.ofNat 39

/-- `Workers?\s*[\'\']?\s*Comp(?:ensation)?[:\s]+\$([0-9,]+)`
(`pdf_service.py:121-125`).  Returns the amount group. -/
def matchWCAt (cs : List Char) : Option (List Char × List Char) :=
  match litCI "Worker".data cs with
  | none => none
  | some r0 =>
    let r1 := match r0 with
      | ch :: t => if ch.toLower == 's' then t else r0
      | [] => r0
    let (_, r2) := r1.span isPySpace
    let r3 := match r2 with
      | ch :: t => if ch == apostrophe then t else r2
      | [] => r2
    let (_, r4) := r3.span isPySpace
    match litCI "Comp".data r4 with
    | none => none
    | some r5 =>
      match litCI "ensation".data r5 with
      | some r6 => sepDollarAmount r6 <|> sepDollarAmount r5
      | none => sepDollarAmount r5

/-- `Auto(?:mobile)?\s+(?:Liability)?[:\s]+\$([0-9,]+)`
(`pdf_service.py:135-139`).  Returns the amount group.  When `Liability` is
absent and the text goes straight from the `\s+` run to `$`, the engine
backtracks one or more spaces from `\s+` into `[:\s]+`, which needs the run
to hold at least two characters. -/
def matchAutoAt (cs : List Char) : Option (List Char × List Char) :=
  match litCI "Auto".data cs with
  | none => none
  | some r0 =>
    let r1 := match litCI "mobile".data r0 with
      | some t => t
      | none => r0
    match many1 isPySpace r1 with
    | none => none
    | some (sp, r2) =>
      let noLiab :=
        match many1 isSepChar r2 with
        | some (_, r3) =>
          match r3 with
          | '$' :: r4 => many1 isAmtChar r4
          | _ => none
        | none =>
          if 2 ≤ sp.length then
            match r2 with
            | '$' :: r4 => many1 isAmtChar r4
            | _ => none
          else none
      match litCI "Liability".data r2 with
      | some r3 => sepDollarAmount r3 <|> noLiab
      | none => noLiab

/-- `(?:Umbrella|Excess)[:\s]+\$([0-9,]+)` (`pdf_service.py:149-153`).
Returns the amount group (the two alternatives start with different letters,
so they are disjoint). -/
def matchUmbAt (cs : List Char) : Option (List Char × List Char) :=
  match litCI "Umbrella".data cs with
  | some r0 => sepDollarAmount r0
  | none =>
    match litCI "Excess".data cs with
    | some r0 => sepDollarAmount r0
    | none => none

def p1Matches (text : String) : List (List Char × List Char × List Char) :=
  finditer matchP1At text

def p2Matches (text : String) : List (List Char) :=
  finditer matchP2At text

def p3Matches (text : String) : List (List Char × List Char) :=
  finditer matchP3At text

def wcMatches (text : String) : List (List Char) :=
  finditer matchWCAt text

def autoMatches (text : String) : List (List Char) :=
  finditer matchAutoAt text

def umbMatches (text : String) : List (List Char) :=
  finditer matchUmbAt text

/-! ## `parse_insurance_program_pdf` itself -/

/-- The Python exception that can escape `parse_insurance_program_pdf`. -/
inductive PyError where
  | valueError
deriving DecidableEq

/-- `group.replace(",", "")`. -/
def stripCommas (cs : List Char) : List Char := cs.filter (fun c => c != ',')

/-- Value of a non-empty decimal-digit string. -/
def intOfDigits (cs : List Char) : Nat :=
  cs.foldl (fun a c => 10 * a + (c.toNat - 48)) 0

/-- `int(group.replace(",", ""))` for a `[0-9,]+` match: the comma-stripped
text consists of decimal digits only, so `int` raises `ValueError` exactly
when it is empty (the group was all commas) and otherwise returns its
value. -/
def pyIntAmount (g : List Char) : Except PyError Nat :=
  let ds := stripCommas g
  if ds.isEmpty then .error .valueError else .ok (intOfDigits ds)

/-- A requirement dict appended by `parse_insurance_program_pdf`:
`trade_req` for patterns 1-3 (keys `tier`, `trade`, `gl_per_occurrence`,
`pattern`), `coverage_req` for the ancillary patterns (keys `type`, `limit`,
`pattern`). -/
inductive ParsedReq where
  | trade_req (tier : Nat) (trade : String) (gl_per_occurrence : Nat) (pattern : String)
  | coverage_req (insType : String) (limit : Nat) (pattern : String)
deriving DecidableEq

/-- The dict returned by `parse_insurance_program_pdf`
(`pdf_service.py:164-168`). -/
structure ParseOutput where
  success : Bool
  requirements : List ParsedReq
  totalFound : Nat
deriving DecidableEq

/-- Body of the pattern-1 loop (`pdf_service.py:69-80`); `int(tier)` cannot
raise because the group matched `\d+`. -/
def conv1 : List Char × List Char × List Char → Except PyError ParsedReq
  | (d, tr, amt) =>
    match pyIntAmount amt with
    | .error e => .error e
    | .ok lim =>
      .ok (.trade_req (intOfDigits d) (String.mk (pyStripChars tr)) lim "tier_trade_table")

/-- Body of the pattern-2 loop (`pdf_service.py:90-98`). -/
def conv2 (amt : List Char) : Except PyError ParsedReq :=
  match pyIntAmount amt with
  | .error e => .error e
  | .ok lim => .ok (.trade_req 1 "Prime Subcontractor" lim "prime_subcontractor")

/-- Body of the pattern-3 loop (`pdf_service.py:108-117`); the `trade` label
interpolates the tier digits as matched. -/
def conv3 : List Char × List Char → Except PyError ParsedReq
  | (d, amt) =>
    match pyIntAmount amt with
    | .error e => .error e
    | .ok lim =>
      .ok (.trade_req (intOfDigits d) ("Tier " ++ String.mk d ++ " (All Trades)") lim
        "general_tier")

/-- Body of the ancillary-pattern loops (`pdf_service.py:126-160`); for each
of them the `type` and `pattern` values coincide. -/
def convCoverage (ty : String) (amt : List Char) : Except PyError ParsedReq :=
  match pyIntAmount amt with
  | .error e => .error e
  | .ok lim => .ok (.coverage_req ty lim ty)

/-- Run a loop body over the matches in order, propagating the first raised
exception, as the Python `for` loops do. -/
def convList {α β : Type} (f : α → Except PyError β) : List α → Except PyError (List β)
  | [] => .ok []
  | a :: t =>
    match f a with
    | .error e => .error e
    | .ok b =>
      match convList f t with
      | .error e => .error e
      | .ok bs => .ok (b :: bs)

/-- `parse_insurance_program_pdf(text)` (`pdf_service.py:49-168`): the six
pattern loops run in source order over the full text, their requirement
dicts are concatenated, and any exception raised by a loop body escapes. -/
def parse_insurance_program_pdf (text : String) : Except PyError ParseOutput :=
  match convList conv1 (p1Matches text) with
  | .error e => .error e
  | .ok l1 =>
    match convList conv2 (p2Matches text) with
    | .error e => .error e
    | .ok l2 =>
      match convList conv3 (p3Matches text) with
      | .error e => .error e
      | .ok l3 =>
        match convList (convCoverage "workers_comp") (wcMatches text) with
        | .error e => .error e
        | .ok l4 =>
          match convList (convCoverage "auto") (autoMatches text) with
          | .error e => .error e
          | .ok l5 =>
            match convList (convCoverage "umbrella") (umbMatches text) with
            | .error e => .error e
            | .ok l6 =>
              let all := l1 ++ l2 ++ l3 ++ l4 ++ l5 ++ l6
              .ok { success := true, requirements := all, totalFound := all.length }

/-- The requirements of a successful parse (empty on an exception); used to
state membership facts about parse results. -/
def reqsOf : Except PyError ParseOutput → List ParsedReq
  | .ok o => o.requirements
  | .error _ => []

/-! ## Scanners for `extract_coi_fields` (`adobe_pdf_service.py:80-101`) -/

/-- The class `[\w.-]` of the email pattern. -/
def isEmailChar (c : Char) : Bool := isWordChar c || c == '.' || c == '-'

/-- The class `[A-Za-z\s&.,]` of the carrier-name group. -/
def isCarrierChar (c : Char) : Bool :=
  c.isAlpha || isPySpace c || c == '&' || c == '.' || c == ','

/-- Case-insensitive literal that also returns the consumed input characters
(needed where `re.findall` reports the whole match in original case). -/
def litCIC : List Char → List Char → Option (List Char × List Char)
  | [], cs => some ([], cs)
  | _ :: _, [] => none
  | l :: ls, c :: cs =>
    if l.toLower == c.toLower then
      match litCIC ls cs with
      | some (t, r) => some (c :: t, r)
      | none => none
    else none

/-- Largest index `j ≥ 1` of `w` holding a digit, if any: the backtracking
target of the greedy `\w+` in the policy-number pattern. -/
def lastDigitIdxFrom1 (w : List Char) : Option Nat :=
  (List.range w.length).foldl
    (fun acc j => if 1 ≤ j && (w.getD j ' ').isDigit then some j else acc) none

/-- `POL[-]?\w+[-]?\d+` (`adobe_pdf_service.py:81`), whole match returned.
Greedily: after `POL` and an optional dash, take the maximal `\w+` run `w`.
If a dash plus at least one digit follows `w`, the match extends through
that digit run.  Otherwise the engine backtracks `\w+` to the largest
prefix whose following character (still inside `w`) is a digit, and `\d+`
takes the digit run from there. -/
def matchPolAt (cs : List Char) : Option (List Char × List Char) :=
  match litCIC "POL".data cs with
  | none => none
  | some (p0, r0) =>
    let (dash, r1) := match r0 with
      | '-' :: t => ([('-' : Char)], t)
      | _ => ([], r0)
    match many1 isWordChar r1 with
    | none => none
    | some (w, r2) =>
      let fallback :=
        match lastDigitIdxFrom1 w with
        | some j =>
          let ds := (w.drop j).takeWhile Char.isDigit
          some (p0 ++ dash ++ w.take j ++ ds, (w.drop j).dropWhile Char.isDigit ++ r2)
        | none => none
      match r2 with
      | '-' :: r3 =>
        match many1 Char.isDigit r3 with
        | some (ds, r4) => some (p0 ++ dash ++ w ++ '-' :: ds, r4)
        | none => fallback
      | _ => fallback

/-- `\$[\d,]+(?:,\d{3})*(?:\.\d{2})?` (`adobe_pdf_service.py:85`), whole
match returned.  After the greedy `[\d,]+` run the `(?:,\d{3})*` group can
only iterate zero times (the next character is neither digit nor comma);
the optional cents group takes a dot followed by exactly two digits. -/
def matchAmountAt (cs : List Char) : Option (List Char × List Char) :=
  match cs with
  | '$' :: r =>
    match many1 isAmtChar r with
    | none => none
    | some (amt, r2) =>
      match r2 with
      | '.' :: d1 :: d2 :: r3 =>
        if d1.isDigit && d2.isDigit then some ('$' :: amt ++ '.' :: d1 :: d2 :: [], r3)
        else some ('$' :: amt, r2)
      | _ => some ('$' :: amt, r2)
  | _ => none

/-- Exactly `n` characters of a class (`\d{2}`, `\d{4}`). -/
def exactN (p : Char → Bool) : Nat → List Char → Option (List Char × List Char)
  | 0, cs => some ([], cs)
  | _ + 1, [] => none
  | n + 1, c :: cs =>
    if p c then
      match exactN p n cs with
      | some (t, r) => some (c :: t, r)
      | none => none
    else none

/-- `\d{2}/\d{2}/\d{4}` (`adobe_pdf_service.py:89`), whole match returned. -/
def matchDateAt (cs : List Char) : Option (List Char × List Char) :=
  match exactN Char.isDigit 2 cs with
  | some (a, '/' :: r1) =>
    match exactN Char.isDigit 2 r1 with
    | some (b, '/' :: r2) =>
      match exactN Char.isDigit 4 r2 with
      | some (c, r3) => some (a ++ '/' :: b ++ '/' :: c, r3)
      | none => none
    | _ => none
  | _ => none

/-- Largest index `k ≥ 1` of `r` holding a dot followed by a word character:
the backtracking target of the greedy second `[\w.-]+` in the email
pattern. -/
def lastDotIdx (r : List Char) : Option Nat :=
  (List.range r.length).foldl
    (fun acc k =>
      if 1 ≤ k && (r.getD k ' ' == '.') && isWordChar (r.getD (k + 1) ' ') then some k
      else acc) none

/-- `[\w.-]+@[\w.-]+\.\w+` (`adobe_pdf_service.py:95`), whole match
returned.  The local part is the maximal `[\w.-]` run before `@`; the
greedy run after `@` backtracks to the last dot that is followed by a word
character, and `\w+` takes the word run after that dot. -/
def matchEmailAt (cs : List Char) : Option (List Char × List Char) :=
  match many1 isEmailChar cs with
  | none => none
  | some (l, r0) =>
    match r0 with
    | '@' :: r1 =>
      match many1 isEmailChar r1 with
      | none => none
      | some (dom, r2) =>
        match lastDotIdx dom with
        | some k =>
          let tail := (dom.drop (k + 1)).takeWhile isWordChar
          some (l ++ '@' :: dom.take k ++ '.' :: tail,
            (dom.drop (k + 1)).dropWhile isWordChar ++ r2)
        | none => none
    | _ => none

/-- `(?:INSURER|INSURANCE|COMPANY)\s+[A-Z]:\s*([A-Za-z\s&.,]+)`
(`adobe_pdf_service.py:100`), returning the capture group (what
`re.findall` yields for a one-group pattern).  Under `re.IGNORECASE` the
`[A-Z]` class matches any ASCII letter.  When the maximal group run after
the greedy `\s*` is empty, the engine backtracks `\s*` by one character and
the group becomes that single whitespace character. -/
def matchCarrierAt (cs : List Char) : Option (List Char × List Char) :=
  let afterKW :=
    match litCI "INSURER".data cs with
    | some r => some r
    | none =>
      match litCI "INSURANCE".data cs with
      | some r => some r
      | none => litCI "COMPANY".data cs
  match afterKW with
  | none => none
  | some r0 =>
    match many1 isPySpace r0 with
    | none => none
    | some (_, r1) =>
      match r1 with
      | ch :: ':' :: r3 =>
        if ch.isAlpha then
          let (sp, r4) := r3.span isPySpace
          let (body, r5) := r4.span isCarrierChar
          if body.isEmpty then
            match sp.reverse with
            | lc :: _ => some ([lc], r4)
            | [] => none
          else some (body, r5)
        else none
      | _ => none

def polMatches (text : String) : List String :=
  (finditer matchPolAt text).map String.mk

def amountMatches (text : String) : List String :=
  (finditer matchAmountAt text).map String.mk

def dateMatches (text : String) : List String :=
  (finditer matchDateAt text).map String.mk

def emailMatches (text : String) : List String :=
  (finditer matchEmailAt text).map String.mk

def carrierMatches (text : String) : List String :=
  (finditer matchCarrierAt text).map String.mk

/-- `list(set(...))`: CPython returns the set's elements in an unspecified
hash-based order, so the embedding fixes a concrete deduplication; every
claim about these lists concerns only duplicate-freeness, which holds for
any order. -/
def pySetList (l : List String) : List String := l.dedup

/-- The list-valued fields of the dict built by `extract_coi_fields`
(`adobe_pdf_service.py:68-103`).  The `source` and `extractedAt` metadata
strings come from the call environment and clock and carry no claim, so
they are omitted. -/
structure ExtractedFields where
  insurance_carriers : List String := []
  policy_numbers : List String := []
  coverage_limits : List String := []
  effective_dates : List String := []
  expiration_dates : List String := []
  additional_insureds : List String := []
  contact_emails : List String := []
deriving DecidableEq

/-- `extract_coi_fields` field extraction (`adobe_pdf_service.py:80-103`):
policy numbers, amounts, dates and emails are passed through `list(set(..))`;
the carrier names are only stripped, never deduplicated; the same
deduplicated date list is stored under both date keys; `additional_insureds`
is initialised empty and never filled. -/
def extract_coi_fields (text : String) : ExtractedFields :=
  let dates := pySetList (dateMatches text)
  { policy_numbers := pySetList (polMatches text)
    coverage_limits := pySetList (amountMatches text)
    expiration_dates := dates
    effective_dates := dates
    contact_emails := pySetList (emailMatches text)
    insurance_carriers := (carrierMatches text).map pyStrip
    additional_insureds := [] }

/-! ## Predicates used to state the claims -/

/-- Recognise a `coverage_expired` issue for a given coverage type. -/
def isExpiredFor (ct : String) : Issue → Bool
  | .coverage_expired c _ _ => c == ct
  | _ => false

/-- Number of `coverage_expired` issues for a coverage type. -/
def expiredCount (ct : String) (issues : List Issue) : Nat :=
  (issues.filter (isExpiredFor ct)).length

/-- Recognise an `invalid_date_format` issue for a given coverage type. -/
def isInvalidFor (ct : String) : Issue → Bool
  | .invalid_date_format c _ => c == ct
  | _ => false

/-- Recognise a `missing_additional_insured` issue for a given party. -/
def isMissingFor (p : String) : Issue → Bool
  | .missing_additional_insured q _ _ => q == p
  | _ => false

/-- Number of `missing_additional_insured` issues for a party. -/
def missingCount (p : String) (issues : List Issue) : Nat :=
  (issues.filter (isMissingFor p)).length

/-! ## Helper lemmas about the evaluator components -/

theorem analyze_issues_eq (now : Int) (coi : CoiData) (reqs : List ProgramReq) :
    (analyze_coi_compliance now coi reqs).issues
      = (checkCoverage coi.gl_limits_per_occurrence reqs).1
        ++ (checkDate "General Liability" coi.gl_expiration_date now).1
        ++ (checkDate "Workers Compensation" coi.wc_expiration_date now).1
        ++ (checkAI (normalizeAI coi.additional_insureds) (requiredParties reqs)).1 := by
  simp [analyze_coi_compliance]

theorem checkCoverage_mem_iff (g : Nat) (reqs : List ProgramReq) (t : String) (L a : Nat)
    (s : String) :
    Issue.coverage_insufficient t L a s ∈ (checkCoverage g reqs).1
      ↔ a = g ∧ s = "high" ∧
          ∃ req ∈ reqs, req.trade = t ∧ req.gl_per_occurrence = L ∧ 0 < L ∧ g < L := by
  induction reqs with
  | nil => simp [checkCoverage]
  | cons req rest ih =>
    simp only [checkCoverage]
    split
    · rename_i h
      simp only [List.mem_cons, ih, Issue.coverage_insufficient.injEq]
      constructor
      · rintro (⟨ht, hL, ha, hs⟩ | ⟨ha, hs, r, hr, h1, h2, h3, h4⟩)
        · subst ht hL ha hs
          exact ⟨rfl, rfl, req, Or.inl rfl, rfl, rfl, h.1, h.2⟩
        · exact ⟨ha, hs, r, Or.inr hr, h1, h2, h3, h4⟩
      · rintro ⟨ha, hs, r, hre | hrm, h1, h2, h3, h4⟩
        · subst hre
          exact Or.inl ⟨h1.symm, h2.symm, ha, hs⟩
        · exact Or.inr ⟨ha, hs, r, hrm, h1, h2, h3, h4⟩
    · rename_i h
      rw [ih]
      constructor
      · rintro ⟨ha, hs, r, hr, h1, h2, h3, h4⟩
        exact ⟨ha, hs, r, List.mem_cons_of_mem _ hr, h1, h2, h3, h4⟩
      · rintro ⟨ha, hs, r, hr, h1, h2, h3, h4⟩
        rcases List.mem_cons.mp hr with hre | hrm
        · exact absurd ⟨h2.symm ▸ h3, h2.symm ▸ h4⟩ (hre ▸ h)
        · exact ⟨ha, hs, r, hrm, h1, h2, h3, h4⟩

theorem checkCoverage_filter_expired (ct : String) (g : Nat) (reqs : List ProgramReq) :
    (checkCoverage g reqs).1.filter (isExpiredFor ct) = [] := by
  induction reqs with
  | nil => simp [checkCoverage]
  | cons req rest ih =>
    simp only [checkCoverage]
    split <;> simp [isExpiredFor, ih]

theorem checkCoverage_filter_missing (p : String) (g : Nat) (reqs : List ProgramReq) :
    (checkCoverage g reqs).1.filter (isMissingFor p) = [] := by
  induction reqs with
  | nil => simp [checkCoverage]
  | cons req rest ih =>
    simp only [checkCoverage]
    split <;> simp [isMissingFor, ih]

theorem checkCoverage_no_missing (g : Nat) (reqs : List ProgramReq) (p : String)
    (acts : List String) (s : String) :
    Issue.missing_additional_insured p acts s ∉ (checkCoverage g reqs).1 := by
  induction reqs with
  | nil => simp [checkCoverage]
  | cons req rest ih =>
    simp only [checkCoverage]
    split <;> simp_all

theorem checkDate_no_insufficient (ct : String) (f : Option DateField) (now : Int)
    (t : String) (L a : Nat) (s : String) :
    Issue.coverage_insufficient t L a s ∉ (checkDate ct f now).1 := by
  rcases f with _ | d
  · simp [checkDate]
  · by_cases hr : d.raw = ""
    · simp [checkDate, hr]
    · cases hp : d.parsed with
      | none => simp [checkDate, hr, hp]
      | some e =>
        simp only [checkDate, hr, hp, if_false]
        split <;> simp

theorem checkDate_no_missing (ct : String) (f : Option DateField) (now : Int)
    (p : String) (acts : List String) (s : String) :
    Issue.missing_additional_insured p acts s ∉ (checkDate ct f now).1 := by
  rcases f with _ | d
  · simp [checkDate]
  · by_cases hr : d.raw = ""
    · simp [checkDate, hr]
    · cases hp : d.parsed with
      | none => simp [checkDate, hr, hp]
      | some e =>
        simp only [checkDate, hr, hp, if_false]
        split <;> simp

theorem checkDate_filter_missing (p ct : String) (f : Option DateField) (now : Int) :
    (checkDate ct f now).1.filter (isMissingFor p) = [] := by
  rcases f with _ | d
  · simp [checkDate]
  · by_cases hr : d.raw = ""
    · simp [checkDate, hr]
    · cases hp : d.parsed with
      | none => simp [checkDate, hr, hp, isMissingFor]
      | some e =>
        simp only [checkDate, hr, hp, if_false]
        split <;> simp [isMissingFor]

theorem checkDate_filter_expired_parsed (ct raw : String) (e now : Int) (h : raw ≠ "") :
    (checkDate ct (some ⟨raw, some e⟩) now).1.filter (isExpiredFor ct)
      = if e ≤ now then [Issue.coverage_expired ct raw "critical"] else [] := by
  simp only [checkDate, h, if_false]
  split <;> simp [isExpiredFor]

theorem checkDate_filter_expired_ne (ct ct' : String) (f : Option DateField) (now : Int)
    (h : ct ≠ ct') :
    (checkDate ct f now).1.filter (isExpiredFor ct') = [] := by
  rcases f with _ | d
  · simp [checkDate]
  · by_cases hr : d.raw = ""
    · simp [checkDate, hr]
    · cases hp : d.parsed with
      | none => simp [checkDate, hr, hp, isExpiredFor]
      | some e =>
        simp only [checkDate, hr, hp, if_false]
        split <;> simp [isExpiredFor, h]

theorem checkAI_filter_expired (ct : String) (actuals parties : List String) :
    (checkAI actuals parties).1.filter (isExpiredFor ct) = [] := by
  induction parties with
  | nil => simp [checkAI]
  | cons q rest ih =>
    simp only [checkAI]
    split <;> simp [isExpiredFor, ih]

theorem checkAI_no_insufficient (actuals parties : List String) (t : String) (L a : Nat)
    (s : String) :
    Issue.coverage_insufficient t L a s ∉ (checkAI actuals parties).1 := by
  induction parties with
  | nil => simp [checkAI]
  | cons q rest ih =>
    simp only [checkAI]
    split <;> simp_all

theorem checkAI_missing_mem_iff (actuals parties : List String) (p : String)
    (acts : List String) (s : String) :
    Issue.missing_additional_insured p acts s ∈ (checkAI actuals parties).1
      ↔ acts = actuals ∧ s = "high" ∧ p ∈ parties ∧ p ≠ "" ∧
          aiMatchFound p actuals = false := by
  induction parties with
  | nil => simp [checkAI]
  | cons q rest ih =>
    simp only [checkAI]
    split
    · rename_i h
      rw [Bool.and_eq_true, bne_iff_ne, Bool.not_eq_true'] at h
      simp only [List.mem_cons, ih, Issue.missing_additional_insured.injEq]
      constructor
      · rintro (⟨hp, hacts, hs⟩ | ⟨h1, h2, h3, h4, h5⟩)
        · subst hp hacts hs
          exact ⟨rfl, rfl, Or.inl rfl, h.1, h.2⟩
        · exact ⟨h1, h2, Or.inr h3, h4, h5⟩
      · rintro ⟨h1, h2, hq | hm, h4, h5⟩
        · subst hq
          exact Or.inl ⟨rfl, h1, h2⟩
        · exact Or.inr ⟨h1, h2, hm, h4, h5⟩
    · rename_i h
      rw [Bool.and_eq_true, bne_iff_ne, Bool.not_eq_true'] at h
      rw [ih]
      constructor
      · rintro ⟨h1, h2, h3, h4, h5⟩
        exact ⟨h1, h2, List.mem_cons_of_mem _ h3, h4, h5⟩
      · rintro ⟨h1, h2, hq, h4, h5⟩
        rcases List.mem_cons.mp hq with hre | hrm
        · subst hre
          exact absurd ⟨h4, h5⟩ h
        · exact ⟨h1, h2, hrm, h4, h5⟩

theorem checkAI_filter_missing_notmem (actuals parties : List String) (p : String)
    (h : p ∉ parties) :
    (checkAI actuals parties).1.filter (isMissingFor p) = [] := by
  induction parties with
  | nil => simp [checkAI]
  | cons q rest ih =>
    have hq : q ≠ p := fun e => h (e ▸ List.mem_cons_self q rest)
    have hrest : p ∉ rest := fun m => h (List.mem_cons_of_mem _ m)
    simp only [checkAI]
    split <;> simp [isMissingFor, hq, ih hrest]

theorem checkAI_filter_missing_nodup (actuals parties : List String) (p : String)
    (h : parties.Nodup) :
    ((checkAI actuals parties).1.filter (isMissingFor p)).length ≤ 1 := by
  induction parties with
  | nil => simp [checkAI]
  | cons q rest ih =>
    have hq : q ∉ rest := (List.nodup_cons.mp h).1
    have hrest := (List.nodup_cons.mp h).2
    simp only [checkAI]
    split
    · by_cases hpq : q = p
      · subst hpq
        simp [isMissingFor, checkAI_filter_missing_notmem actuals rest q hq]
      · simp [isMissingFor, hpq, ih hrest]
    · exact ih hrest

theorem requiredPartiesAux_mem (reqs : List ProgramReq) (acc : List String) (p : String) :
    p ∈ requiredPartiesAux reqs acc
      ↔ p ∈ acc ∨ ∃ req ∈ reqs, req.requires_additional_insured = true ∧
          req.additional_insured_party.getD "Certificate Holder" = p := by
  induction reqs generalizing acc with
  | nil => simp [requiredPartiesAux]
  | cons req rest ih =>
    simp only [requiredPartiesAux]
    by_cases hreq : req.requires_additional_insured = true
    · rw [if_pos hreq]
      by_cases hin : req.additional_insured_party.getD "Certificate Holder" ∈ acc
      · rw [if_pos hin, ih]
        constructor
        · rintro (h | ⟨r, hr, h1, h2⟩)
          · exact Or.inl h
          · exact Or.inr ⟨r, List.mem_cons_of_mem _ hr, h1, h2⟩
        · rintro (h | ⟨r, hr, h1, h2⟩)
          · exact Or.inl h
          · rcases List.mem_cons.mp hr with hre | hrm
            · subst hre
              exact Or.inl (h2 ▸ hin)
            · exact Or.inr ⟨r, hrm, h1, h2⟩
      · rw [if_neg hin, ih]
        simp only [List.mem_append, List.mem_singleton]
        constructor
        · rintro ((h | h) | ⟨r, hr, h1, h2⟩)
          · exact Or.inl h
          · exact Or.inr ⟨req, List.mem_cons_self _ _, hreq, h.symm⟩
          · exact Or.inr ⟨r, List.mem_cons_of_mem _ hr, h1, h2⟩
        · rintro (h | ⟨r, hr, h1, h2⟩)
          · exact Or.inl (Or.inl h)
          · rcases List.mem_cons.mp hr with hre | hrm
            · subst hre
              exact Or.inl (Or.inr h2.symm)
            · exact Or.inr ⟨r, hrm, h1, h2⟩
    · rw [if_neg hreq, ih]
      constructor
      · rintro (h | ⟨r, hr, h1, h2⟩)
        · exact Or.inl h
        · exact Or.inr ⟨r, List.mem_cons_of_mem _ hr, h1, h2⟩
      · rintro (h | ⟨r, hr, h1, h2⟩)
        · exact Or.inl h
        · rcases List.mem_cons.mp hr with hre | hrm
          · subst hre
            exact absurd h1 hreq
          · exact Or.inr ⟨r, hrm, h1, h2⟩

theorem requiredPartiesAux_nodup (reqs : List ProgramReq) (acc : List String)
    (h : acc.Nodup) : (requiredPartiesAux reqs acc).Nodup := by
  induction reqs generalizing acc with
  | nil => simpa [requiredPartiesAux] using h
  | cons req rest ih =>
    simp only [requiredPartiesAux]
    by_cases hreq : req.requires_additional_insured = true
    · rw [if_pos hreq]
      by_cases hin : req.additional_insured_party.getD "Certificate Holder" ∈ acc
      · rw [if_pos hin]
        exact ih _ h
      · rw [if_neg hin]
        refine ih _ ?_
        simp [List.nodup_append, List.disjoint_singleton, h, hin]
    · rw [if_neg hreq]
      exact ih _ h

theorem containsCI_empty (p : String) (hp : p ≠ "") : containsCI p "" = false := by
  have hd : p.data ≠ [] := by
    intro h
    apply hp
    cases p
    simp_all
  cases hp' : p.data with
  | nil => exact absurd hp' hd
  | cons c cs => simp [containsCI, hp', lowerChars, containsSub]

theorem aiMatchFound_eq_false_iff (p : String) (hp : p ≠ "") (l : List String) :
    aiMatchFound p l = false ↔ ∀ ai ∈ l, containsCI p ai = false := by
  rw [aiMatchFound, List.any_eq_false]
  constructor
  · intro h ai hai
    by_cases hne : ai = ""
    · subst hne
      exact containsCI_empty p hp
    · have hone := h ai hai
      rw [Bool.and_eq_true, bne_iff_ne] at hone
      rcases Bool.eq_false_or_eq_true (containsCI p ai) with hc | hc
      · exact absurd ⟨hne, hc⟩ hone
      · exact hc
  · intro h ai hai
    rw [Bool.and_eq_true, bne_iff_ne]
    rintro ⟨-, hc⟩
    rw [h ai hai] at hc
    cases hc

theorem aiMatchFound_filter (p : String) (l : List String) :
    aiMatchFound p l = aiMatchFound p (l.filter (fun ai => ai != "")) := by
  rw [aiMatchFound, aiMatchFound, List.any_filter]
  congr 1
  funext ai
  rw [← Bool.and_assoc, Bool.and_self]

theorem convList_ok {α β : Type} (f : α → Except PyError β) (l : List α)
    (h : ∀ a ∈ l, ∃ b, f a = .ok b) : ∃ bs, convList f l = .ok bs := by
  induction l with
  | nil => exact ⟨[], rfl⟩
  | cons a t ih =>
    obtain ⟨b, hb⟩ := h a (List.mem_cons_self a t)
    obtain ⟨bs, hbs⟩ := ih (fun x hx => h x (List.mem_cons_of_mem _ hx))
    exact ⟨b :: bs, by simp [convList, hb, hbs]⟩

/-! ## The claims -/

/-- Claim C1 (code-bug exhibit): an unparseable `gl_expiration_date` such as
`"invalid-date-format"` does produce exactly one `invalid_date_format` issue
of severity `medium` tagged "General Liability" (two issues when both dates
are invalid), but the returned `compliant` flag stays `True`, contradicting
the claim, the spec's fail-closed requirement, and the repository's own
tests (`test_pdf_service_date_validation.py:103-157`). -/
theorem C1_invalid_date_keeps_compliant :
    ((analyze_coi_compliance 0
        { gl_limits_per_occurrence := 1000000,
          gl_expiration_date := some ⟨"invalid-date-format", none⟩ } []).compliant = true
      ∧ (analyze_coi_compliance 0
        { gl_limits_per_occurrence := 1000000,
          gl_expiration_date := some ⟨"invalid-date-format", none⟩ } []).issues
        = [Issue.invalid_date_format "General Liability" "medium"])
    ∧ ((analyze_coi_compliance 0
        { gl_limits_per_occurrence := 1000000,
          gl_expiration_date := some ⟨"bad-gl-date", none⟩,
          wc_expiration_date := some ⟨"bad-wc-date", none⟩ } []).compliant = true
      ∧ (analyze_coi_compliance 0
        { gl_limits_per_occurrence := 1000000,
          gl_expiration_date := some ⟨"bad-gl-date", none⟩,
          wc_expiration_date := some ⟨"bad-wc-date", none⟩ } []).issues
        = [Issue.invalid_date_format "General Liability" "medium",
           Issue.invalid_date_format "Workers Compensation" "medium"]) :=
  ⟨⟨rfl, rfl⟩, ⟨rfl, rfl⟩⟩

/-- Claim C2: for a present, parseable GL (resp. WC) expiration instant `e`
and reference instant `now`, `analyze_coi_compliance` emits a
`coverage_expired` issue of severity `critical` naming that coverage type
exactly when `e ≤ now` (one such issue, none otherwise); in particular a
policy with `now < e` (e.g. expiring at end of the current reference day) is
compliant with no issue, and one with `e ≤ now` (e.g. one day earlier) is
non-compliant with exactly one `coverage_expired` issue naming the correct
coverage type. -/
theorem C2_expiration_boundary (now : Int) (coi : CoiData) (reqs : List ProgramReq)
    (raw : String) (e : Int) :
    (coi.gl_expiration_date = some ⟨raw, some e⟩ → raw ≠ "" →
      expiredCount "General Liability" (analyze_coi_compliance now coi reqs).issues
        = if e ≤ now then 1 else 0)
    ∧ (coi.wc_expiration_date = some ⟨raw, some e⟩ → raw ≠ "" →
      expiredCount "Workers Compensation" (analyze_coi_compliance now coi reqs).issues
        = if e ≤ now then 1 else 0)
    ∧ (raw ≠ "" → now < e →
      (analyze_coi_compliance now { gl_expiration_date := some ⟨raw, some e⟩ } []).compliant
          = true
        ∧ (analyze_coi_compliance now { gl_expiration_date := some ⟨raw, some e⟩ } []).issues
          = [])
    ∧ (raw ≠ "" → e ≤ now →
      (analyze_coi_compliance now { gl_expiration_date := some ⟨raw, some e⟩ } []).compliant
          = false
        ∧ (analyze_coi_compliance now { gl_expiration_date := some ⟨raw, some e⟩ } []).issues
          = [Issue.coverage_expired "General Liability" raw "critical"])
    ∧ (raw ≠ "" → e ≤ now →
      (analyze_coi_compliance now { wc_expiration_date := some ⟨raw, some e⟩ } []).compliant
          = false
        ∧ (analyze_coi_compliance now { wc_expiration_date := some ⟨raw, some e⟩ } []).issues
          = [Issue.coverage_expired "Workers Compensation" raw "critical"]) := by
  refine ⟨?_, ?_, ?_, ?_, ?_⟩
  · intro hgl hraw
    unfold expiredCount
    rw [analyze_issues_eq]
    simp only [List.filter_append, List.length_append, hgl]
    rw [checkCoverage_filter_expired, checkDate_filter_expired_parsed _ _ _ _ hraw,
      checkDate_filter_expired_ne "Workers Compensation" "General Liability" _ _ (by decide),
      checkAI_filter_expired]
    split <;> simp
  · intro hwc hraw
    unfold expiredCount
    rw [analyze_issues_eq]
    simp only [List.filter_append, List.length_append, hwc]
    rw [checkCoverage_filter_expired,
      checkDate_filter_expired_ne "General Liability" "Workers Compensation" _ _ (by decide),
      checkDate_filter_expired_parsed _ _ _ _ hraw, checkAI_filter_expired]
    split <;> simp
  · intro hraw hlt
    constructor <;>
      simp [analyze_coi_compliance, checkCoverage, checkDate, hraw, not_le.mpr hlt,
        requiredParties, requiredPartiesAux, checkAI, normalizeAI]
  · intro hraw hle
    constructor <;>
      simp [analyze_coi_compliance, checkCoverage, checkDate, hraw, hle,
        requiredParties, requiredPartiesAux, checkAI, normalizeAI]
  · intro hraw hle
    constructor <;>
      simp [analyze_coi_compliance, checkCoverage, checkDate, hraw, hle,
        requiredParties, requiredPartiesAux, checkAI, normalizeAI]

/-- Witness for C2: a GL policy whose instant (one day before the epoch
reference instant 0) is past produces exactly the one critical
`coverage_expired` issue and non-compliance. -/
theorem C2_expiration_boundary_witness :
    (analyze_coi_compliance 0
        { gl_expiration_date := some ⟨"2019-12-31T23:59:59+00:00", some (-86400)⟩ } []).compliant
        = false
      ∧ (analyze_coi_compliance 0
        { gl_expiration_date := some ⟨"2019-12-31T23:59:59+00:00", some (-86400)⟩ } []).issues
        = [Issue.coverage_expired "General Liability" "2019-12-31T23:59:59+00:00" "critical"] :=
  (C2_expiration_boundary 0 {} [] "2019-12-31T23:59:59+00:00" (-86400)).2.2.2.1
    (by decide) (by decide)

/-- Claim C3 (code-bug exhibit): `compliant` is claimed to be `True` iff the
issues list is empty, but on a COI whose `wc_expiration_date` is unparseable
the code returns `compliant = True` together with a non-empty issues list
(the `except` branch never clears the flag), contradicting the claim and the
repository's own tests. -/
theorem C3_issue_with_compliant_true :
    (analyze_coi_compliance 0
        { wc_expiration_date := some ⟨"not-a-real-date", none⟩ } []).compliant = true
    ∧ (analyze_coi_compliance 0
        { wc_expiration_date := some ⟨"not-a-real-date", none⟩ } []).issues ≠ [] := by
  exact ⟨rfl, by decide⟩

/-- Claim C4: with a requirement of limit `L` in the list and certificate
limit `A` (defaulting to 0), a `coverage_insufficient` issue of severity
`high` naming the requirement's trade, `L` and `A` is in the output exactly
when `A < L`. -/
theorem C4_coverage_insufficient_iff (now : Int) (coi : CoiData) (reqs : List ProgramReq)
    (req : ProgramReq) (h : req ∈ reqs) :
    Issue.coverage_insufficient req.trade req.gl_per_occurrence
        coi.gl_limits_per_occurrence "high" ∈ (analyze_coi_compliance now coi reqs).issues
      ↔ coi.gl_limits_per_occurrence < req.gl_per_occurrence := by
  rw [analyze_issues_eq]
  simp only [List.mem_append]
  constructor
  · rintro (((hm | hm) | hm) | hm)
    · rcases (checkCoverage_mem_iff _ _ _ _ _ _).mp hm with ⟨-, -, r, -, -, -, -, h4⟩
      exact h4
    · exact absurd hm (checkDate_no_insufficient _ _ _ _ _ _ _)
    · exact absurd hm (checkDate_no_insufficient _ _ _ _ _ _ _)
    · exact absurd hm (checkAI_no_insufficient _ _ _ _ _ _)
  · intro hlt
    refine Or.inl (Or.inl (Or.inl ?_))
    exact (checkCoverage_mem_iff _ _ _ _ _ _).mpr
      ⟨rfl, rfl, req, h, rfl, rfl, Nat.lt_of_le_of_lt (Nat.zero_le _) hlt, hlt⟩

/-- Witness for C4: a $2,000,000 Electrical requirement against a $1,000,000
certificate yields the `coverage_insufficient` issue. -/
theorem C4_coverage_insufficient_witness :
    Issue.coverage_insufficient "Electrical" 2000000 1000000 "high"
      ∈ (analyze_coi_compliance 0 { gl_limits_per_occurrence := 1000000 }
          [{ gl_per_occurrence := 2000000, trade := "Electrical" }]).issues :=
  (C4_coverage_insufficient_iff 0 { gl_limits_per_occurrence := 1000000 }
      [{ gl_per_occurrence := 2000000, trade := "Electrical" }]
      { gl_per_occurrence := 2000000, trade := "Electrical" }
      (List.mem_singleton.mpr rfl)).mpr (by decide)

/-- Claim C5: requirement extraction on `"Tier 1 Electrical $2,000,000"`
yields the requirement (tier 1, trade "Electrical", 2000000, tagged
`tier_trade_table`); on `"Prime Subcontractor: $5,000,000"` the requirement
(tier 1, "Prime Subcontractor", 5000000); and on
`"All Tier 2 trades: $3,000,000"` the output contains the requirement
(tier 2, "Tier 2 (All Trades)", 3000000, tagged `general_tier`). -/
theorem C5_extraction_examples :
    parse_insurance_program_pdf "Tier 1 Electrical $2,000,000"
        = .ok { success := true,
                requirements := [.trade_req 1 "Electrical" 2000000 "tier_trade_table"],
                totalFound := 1 }
    ∧ parse_insurance_program_pdf "Prime Subcontractor: $5,000,000"
        = .ok { success := true,
                requirements :=
                  [.trade_req 1 "Prime Subcontractor" 5000000 "prime_subcontractor"],
                totalFound := 1 }
    ∧ ParsedReq.trade_req 2 "Tier 2 (All Trades)" 3000000 "general_tier"
        ∈ reqsOf (parse_insurance_program_pdf "All Tier 2 trades: $3,000,000") :=
  ⟨rfl, rfl, by decide⟩

/-- Claim C6 (counterexample): at the concrete input with a required
additional-insured party that is the empty string and an empty
additional-insureds list, the claimed equivalence "issue emitted iff no
entry contains the party as a case-insensitive substring" is false: no
entry exists (so the right side holds), yet the code's truthiness guard on
the party suppresses the issue. -/
theorem C6_empty_party_counterexample :
    ¬ (Issue.missing_additional_insured "" (normalizeAI (AIField.list [])) "high"
          ∈ (analyze_coi_compliance 0 {}
              [{ additional_insured_party := some "" }]).issues
        ↔ ∀ ai ∈ normalizeAI (AIField.list []), containsCI "" ai = false) := by
  decide

/-- Claim C6 (amended): for every requirement demanding an additional
insured with a NON-EMPTY party name `P`, the output contains a
`missing_additional_insured` issue of severity `high` listing `P` and the
full normalized actual list iff no actual entry contains `P` as a
case-insensitive substring (the required name is tested as a substring of
each entry); a requirement whose party name is the empty string never
yields an issue. -/
theorem C6_missing_additional_insured_iff (now : Int) (coi : CoiData)
    (reqs : List ProgramReq) (req : ProgramReq) (P : String) (hmem : req ∈ reqs)
    (hreq : req.requires_additional_insured = true)
    (hP : req.additional_insured_party.getD "Certificate Holder" = P) (hne : P ≠ "") :
    Issue.missing_additional_insured P (normalizeAI coi.additional_insureds) "high"
        ∈ (analyze_coi_compliance now coi reqs).issues
      ↔ ∀ ai ∈ normalizeAI coi.additional_insureds, containsCI P ai = false := by
  rw [analyze_issues_eq]
  simp only [List.mem_append]
  have hmemP : P ∈ requiredParties reqs :=
    (requiredPartiesAux_mem reqs [] P).mpr (Or.inr ⟨req, hmem, hreq, hP⟩)
  constructor
  · rintro (((hm | hm) | hm) | hm)
    · exact absurd hm (checkCoverage_no_missing _ _ _ _ _)
    · exact absurd hm (checkDate_no_missing _ _ _ _ _ _)
    · exact absurd hm (checkDate_no_missing _ _ _ _ _ _)
    · rcases (checkAI_missing_mem_iff _ _ _ _ _).mp hm with ⟨-, -, -, -, h5⟩
      exact (aiMatchFound_eq_false_iff P hne _).mp h5
  · intro hall
    refine Or.inr ?_
    exact (checkAI_missing_mem_iff _ _ _ _ _).mpr
      ⟨rfl, rfl, hmemP, hne, (aiMatchFound_eq_false_iff P hne _).mpr hall⟩

/-- Witness for C6: required party "General Contractor XYZ" against the
actual list `["Contractor XYZ Inc."]` (which does not contain it as a
case-insensitive substring) produces the issue. -/
theorem C6_missing_additional_insured_witness :
    Issue.missing_additional_insured "General Contractor XYZ" ["Contractor XYZ Inc."] "high"
      ∈ (analyze_coi_compliance 0
          { additional_insureds := AIField.list ["Contractor XYZ Inc."] }
          [{ additional_insured_party := some "General Contractor XYZ" }]).issues :=
  (C6_missing_additional_insured_iff 0
      { additional_insureds := AIField.list ["Contractor XYZ Inc."] }
      [{ additional_insured_party := some "General Contractor XYZ" }]
      { additional_insured_party := some "General Contractor XYZ" } "General Contractor XYZ"
      (List.mem_singleton.mpr rfl) rfl rfl (by decide)).mpr (by decide)

/-- Claim C7 (counterexample): `parse_insurance_program_pdf` is claimed
never to raise, but on the input `"Tier 1 x $,"` the pattern-1 amount group
matches only a comma, `int("")` raises, and the `ValueError` escapes. -/
theorem C7_exception_counterexample :
    parse_insurance_program_pdf "Tier 1 x $," = .error .valueError := rfl

/-- Claim C7 (amended): `parse_insurance_program_pdf` returns normally with
an ordered (possibly empty) requirements list for every input in which
every matched dollar-amount group contains at least one digit (equivalently,
is not all commas once commas are stripped); absence of matches yields a
normal result with an empty list. -/
theorem C7_no_exception_with_digit_amounts (text : String)
    (h1 : ∀ m ∈ p1Matches text, stripCommas m.2.2 ≠ [])
    (h2 : ∀ a ∈ p2Matches text, stripCommas a ≠ [])
    (h3 : ∀ m ∈ p3Matches text, stripCommas m.2 ≠ [])
    (h4 : ∀ a ∈ wcMatches text, stripCommas a ≠ [])
    (h5 : ∀ a ∈ autoMatches text, stripCommas a ≠ [])
    (h6 : ∀ a ∈ umbMatches text, stripCommas a ≠ []) :
    ∃ out, parse_insurance_program_pdf text = .ok out ∧ out.success = true
      ∧ out.totalFound = out.requirements.length := by
  have pyOk : ∀ g : List Char, stripCommas g ≠ [] → ∃ n, pyIntAmount g = .ok n := by
    intro g hg
    cases hds : stripCommas g with
    | nil => exact absurd hds hg
    | cons c t => exact ⟨intOfDigits (c :: t), by simp [pyIntAmount, hds]⟩
  obtain ⟨l1, hl1⟩ := convList_ok conv1 (p1Matches text) (fun m hm => by
    obtain ⟨n, hn⟩ := pyOk m.2.2 (h1 m hm)
    rcases m with ⟨d, tr, amt⟩
    exact ⟨ParsedReq.trade_req (intOfDigits d) (String.mk (pyStripChars tr)) n
      "tier_trade_table", by simp [conv1, hn]⟩)
  obtain ⟨l2, hl2⟩ := convList_ok conv2 (p2Matches text) (fun a ha => by
    obtain ⟨n, hn⟩ := pyOk a (h2 a ha)
    exact ⟨ParsedReq.trade_req 1 "Prime Subcontractor" n "prime_subcontractor",
      by simp [conv2, hn]⟩)
  obtain ⟨l3, hl3⟩ := convList_ok conv3 (p3Matches text) (fun m hm => by
    obtain ⟨n, hn⟩ := pyOk m.2 (h3 m hm)
    rcases m with ⟨d, amt⟩
    exact ⟨ParsedReq.trade_req (intOfDigits d) ("Tier " ++ String.mk d ++ " (All Trades)") n
      "general_tier", by simp [conv3, hn]⟩)
  obtain ⟨l4, hl4⟩ := convList_ok (convCoverage "workers_comp") (wcMatches text) (fun a ha => by
    obtain ⟨n, hn⟩ := pyOk a (h4 a ha)
    exact ⟨ParsedReq.coverage_req "workers_comp" n "workers_comp", by simp [convCoverage, hn]⟩)
  obtain ⟨l5, hl5⟩ := convList_ok (convCoverage "auto") (autoMatches text) (fun a ha => by
    obtain ⟨n, hn⟩ := pyOk a (h5 a ha)
    exact ⟨ParsedReq.coverage_req "auto" n "auto", by simp [convCoverage, hn]⟩)
  obtain ⟨l6, hl6⟩ := convList_ok (convCoverage "umbrella") (umbMatches text) (fun a ha => by
    obtain ⟨n, hn⟩ := pyOk a (h6 a ha)
    exact ⟨ParsedReq.coverage_req "umbrella" n "umbrella", by simp [convCoverage, hn]⟩)
  refine ⟨{ success := true, requirements := l1 ++ l2 ++ l3 ++ l4 ++ l5 ++ l6,
            totalFound := (l1 ++ l2 ++ l3 ++ l4 ++ l5 ++ l6).length }, ?_, rfl, rfl⟩
  simp [parse_insurance_program_pdf, hl1, hl2, hl3, hl4, hl5, hl6]

/-- Witness for C7: on a well-formed program text the parser returns
normally. -/
theorem C7_no_exception_witness :
    ∃ out, parse_insurance_program_pdf "Prime Subcontractor: $5,000,000" = .ok out
      ∧ out.success = true ∧ out.totalFound = out.requirements.length :=
  C7_no_exception_with_digit_amounts "Prime Subcontractor: $5,000,000"
    (by decide) (by decide) (by decide) (by decide) (by decide) (by decide)

/-- Claim C8 (counterexample): a comma-joined `additional_insureds` string
with an all-whitespace segment is normalized to a list that RETAINS the
empty segment, and that empty string also appears in the `actual_parties`
of the emitted `missing_additional_insured` issue, contrary to the claim
that empty segments are dropped. -/
theorem C8_empty_segment_counterexample :
    normalizeAI (AIField.str "Alpha, ,Beta") = ["Alpha", "", "Beta"]
    ∧ (analyze_coi_compliance 0
        { additional_insureds := AIField.str "Alpha, ,Beta" } [{}]).issues
      = [Issue.missing_additional_insured "Certificate Holder" ["Alpha", "", "Beta"] "high"] :=
  ⟨rfl, rfl⟩

/-- Claim C8 (amended): a comma-joined `additional_insureds` string is
normalized by splitting on commas and trimming each segment; segments that
are empty after trimming are kept in the normalized list (and hence in
`actual_parties` of emitted issues), but they are ignored by the
additional-insured matching check. -/
theorem C8_comma_normalization (s : String) (P : String) :
    normalizeAI (AIField.str s)
        = (splitComma s.data).map (fun cs => String.mk (pyStripChars cs))
    ∧ aiMatchFound P (normalizeAI (AIField.str s))
        = aiMatchFound P ((normalizeAI (AIField.str s)).filter (fun ai => ai != "")) :=
  ⟨rfl, aiMatchFound_filter P _⟩

/-- Claim C9 (counterexample): `extract_coi_fields` is claimed to return
five duplicate-free lists, but the carrier list is built without
`list(set(...))`: on a text naming the same carrier twice the
`insurance_carriers` list contains a duplicate. -/
theorem C9_carrier_duplicates_counterexample :
    (extract_coi_fields "INSURER A: Acme;INSURER B: Acme;").insurance_carriers
      = ["Acme", "Acme"]
    ∧ ¬ (extract_coi_fields "INSURER A: Acme;INSURER B: Acme;").insurance_carriers.Nodup :=
  ⟨rfl, by decide⟩

/-- Claim C9 (amended): the policy-number, coverage-limit, date and email
lists returned by `extract_coi_fields` are duplicate-free for every input
(each passes through `list(set(...))`); the `insurance_carriers` list is
not deduplicated and may contain duplicates. -/
theorem C9_dedup_four_lists (text : String) :
    (extract_coi_fields text).policy_numbers.Nodup
    ∧ (extract_coi_fields text).coverage_limits.Nodup
    ∧ (extract_coi_fields text).expiration_dates.Nodup
    ∧ (extract_coi_fields text).effective_dates.Nodup
    ∧ (extract_coi_fields text).contact_emails.Nodup :=
  ⟨List.nodup_dedup _, List.nodup_dedup _, List.nodup_dedup _, List.nodup_dedup _,
    List.nodup_dedup _⟩

/-- Claim C10: a requirement that requires an additional insured but names
no `additional_insured_party` is checked against the default party
"Certificate Holder"; required party names are deduplicated before
checking, so at most one `missing_additional_insured` issue is emitted per
distinct required party name. -/
theorem C10_default_party_and_dedup (now : Int) (coi : CoiData) (reqs : List ProgramReq)
    (P : String) :
    (requiredParties reqs).Nodup
    ∧ (∀ req ∈ reqs, req.requires_additional_insured = true →
        req.additional_insured_party = none → "Certificate Holder" ∈ requiredParties reqs)
    ∧ missingCount P (analyze_coi_compliance now coi reqs).issues ≤ 1 := by
  refine ⟨requiredPartiesAux_nodup reqs [] List.nodup_nil, ?_, ?_⟩
  · intro req hm hreq hnone
    exact (requiredPartiesAux_mem reqs [] _).mpr
      (Or.inr ⟨req, hm, hreq, by rw [hnone]; rfl⟩)
  · unfold missingCount
    rw [analyze_issues_eq]
    simp only [List.filter_append, List.length_append]
    rw [checkCoverage_filter_missing, checkDate_filter_missing, checkDate_filter_missing]
    simp only [List.length_nil]
    have hle := checkAI_filter_missing_nodup (normalizeAI coi.additional_insureds)
      (requiredParties reqs) P (requiredPartiesAux_nodup reqs [] List.nodup_nil)
    omega

/-- Witness for C10: a single requirement with no party key is checked
against "Certificate Holder", and at most one missing issue is emitted for
that party. -/
theorem C10_default_party_witness :
    "Certificate Holder" ∈ requiredParties [{}]
    ∧ missingCount "Certificate Holder" (analyze_coi_compliance 0 {} [{}]).issues ≤ 1 :=
  ⟨(C10_default_party_and_dedup 0 {} [{}] "Certificate Holder").2.1 {}
      (List.mem_singleton.mpr rfl) rfl rfl,
    (C10_default_party_and_dedup 0 {} [{}] "Certificate Holder").2.2⟩

end Compliant4
